import Mathlib

/-!
Shallow embedding of `ToothSwinUNETR/losses/loss.py`: the distance-matrix
builders (`get_tooth_dist_matrix`, `get_equall_dist_matrix`) and the two
composite loss wrappers (`GWDLCELoss`, `DiceCELoss`).

Tensor values are modelled as rationals; a tensor is its shape, dtype and
row-major flat data.  The external loss computations (`nn.CrossEntropyLoss`,
MONAI `DiceLoss`, MONAI `GeneralizedWassersteinDiceLoss`) are opaque
functions supplied as fields of the loss states, exactly as the Python
classes hold externally constructed loss objects.
-/

/-- Torch dtypes that occur in this file. -/
inductive DType where
  | float32
  | float64
  | int64
  | int32
deriving DecidableEq, Repr

/-- `torch.is_floating_point` on a dtype. -/
def DType.isFloating : DType → Bool
  | .float32 => true
  | .float64 => true
  | _ => false

/-- A torch tensor: shape, dtype, and row-major flat data (values as ℚ). -/
structure Tensor where
  shape : List Nat
  dtype : DType
  data : List ℚ
deriving DecidableEq, Repr

/-- Truncation toward zero, as a cast from a float value to an integer
dtype performs in torch. -/
def truncQ (q : ℚ) : ℤ :=
  if 0 ≤ q then ⌊q⌋ else -⌊-q⌋

/-- `t.to(dtype=d)`: casting to an integer dtype truncates the values
toward zero; casting to a floating dtype preserves them. -/
def Tensor.toDtype (t : Tensor) (d : DType) : Tensor :=
  { shape := t.shape
    dtype := d
    data := if d.isFloating then t.data else t.data.map fun q => ((truncQ q : ℤ) : ℚ) }

/-- `t.long()`. -/
def Tensor.long (t : Tensor) : Tensor := t.toDtype .int64

/-- `torch.is_floating_point(t)`. -/
def Tensor.is_floating_point (t : Tensor) : Bool := t.dtype.isFloating

/-- `torch.squeeze(t, dim=1)`: drops dimension 1 when it has size 1,
otherwise returns the tensor unchanged. -/
def Tensor.squeezeDim1 (t : Tensor) : Tensor :=
  match t.shape with
  | b :: 1 :: rest => { t with shape := b :: rest }
  | _ => t

/-- `t.shape[1]` (the channel count of a batched tensor). -/
def Tensor.channels (t : Tensor) : Nat := t.shape.getD 1 0

/-- Product of a list of dimension sizes. -/
def prodDims (l : List Nat) : Nat := l.foldr (· * ·) 1

/-- Index of the first maximal element of a list (0 on the empty list),
as `torch.argmax` over a slice. -/
def argmaxList (l : List ℚ) : Nat :=
  (l.foldl
    (fun acc v =>
      let best := acc.1
      let bestIdx := acc.2.1
      let idx := acc.2.2
      if v > best then (v, idx, idx + 1) else (best, bestIdx, idx + 1))
    ((l.headD 0, 0, 0) : ℚ × Nat × Nat)).2.1

/-- `torch.argmax(t, dim=1)` for a tensor of shape `b :: c :: rest`:
shape drops the channel dimension, each output element is the index of
the first maximal value along the channel axis. -/
def Tensor.argmaxDim1 (t : Tensor) : Tensor :=
  match t.shape with
  | b :: c :: rest =>
      let spN := prodDims rest
      { shape := b :: rest
        dtype := .int64
        data := (List.range (b * spN)).map fun idx =>
          let bi := idx / spN
          let si := idx % spN
          ((argmaxList ((List.range c).map fun ci =>
            t.data.getD (bi * c * spN + ci * spN + si) 0) : Nat) : ℚ) }
  | _ => t

/-! ### Distance-matrix builders -/

/-- A matrix of floats, as a list of rows. -/
abbrev Mat := List (List ℚ)

/-- `torch.ones((r, c))`. -/
def onesMat (r c : Nat) : Mat := List.replicate r (List.replicate c (1 : ℚ))

/-- `m[i][j] = v` (out-of-range indices leave the matrix unchanged,
never reached on the concrete shapes used here). -/
def setEntry (m : Mat) (i j : Nat) (v : ℚ) : Mat :=
  m.set i ((m.getD i []).set j v)

/-- `m[i][j]` read. -/
def entry (m : Mat) (i j : Nat) : ℚ := (m.getD i []).getD j 0

/-- The common column count of a rectangular nonempty matrix, `none` if
rows disagree or the matrix has no rows. -/
def rectCols (m : Mat) : Option Nat :=
  match m with
  | [] => none
  | r :: rs => if rs.all fun x => x.length == r.length then some r.length else none

/-- `torch.cat([a, b])` along dim 0: requires equal column counts. -/
def torchCat0 (a b : Mat) : Option Mat := do
  let ca ← rectCols a
  let cb ← rectCols b
  if ca == cb then some (a ++ b) else none

/-- `torch.cat([a, b], dim=1)`: requires equal (nonzero) row counts. -/
def torchCat1 (a b : Mat) : Option Mat :=
  if a.length == b.length && a.length != 0 then
    some (List.zipWith (· ++ ·) a b)
  else
    none

/-- A Python value passed as the `quarter_penalty` argument: the code's
default is the string `"True"` and the branch tests Python truthiness. -/
inductive PyArg where
  | bool (b : Bool)
  | str (s : String)
deriving DecidableEq, Repr

/-- Python truthiness: a Bool is itself; a string is truthy iff nonempty. -/
def PyArg.truthy : PyArg → Bool
  | .bool b => b
  | .str s => s.length != 0

/-- The default value of the `quarter_penalty` parameter: the STRING
`"True"`, not the boolean. -/
def defaultQuarterPenalty : PyArg := .str "True"

/-- The `if quarter_penalty:` branch of `get_tooth_dist_matrix`: loads
the quarter-penalty table (`wasserstein_matrix.npy`) when the argument is
truthy, the equal table (`wasserstein_matrix_equal.npy`) otherwise.  The
two loaded tables are parameters: their on-disk contents are not part of
the source. -/
def loadBaseTable (table_qp table_eq : Mat) (quarter_penalty : PyArg) : Mat :=
  if quarter_penalty.truthy then table_qp else table_eq

/-- `get_tooth_dist_matrix`: loads a base table by truthiness of
`quarter_penalty`, prepends a row of ones (`torch.cat` dim 0) and a column
of ones (`torch.cat` dim 1), and sets the `[0][0]` cell to `0`. -/
def get_tooth_dist_matrix (table_qp table_eq : Mat) (quarter_penalty : PyArg) : Option Mat := do
  let base := loadBaseTable table_qp table_eq quarter_penalty
  let m1 ← torchCat0 (onesMat 1 32) base
  let m2 ← torchCat1 (onesMat 33 1) m1
  pure (setEntry m2 0 0 0)

/-- `get_equall_dist_matrix`: `torch.ones((33,33))` with `[0][0] = 0`. -/
def get_equall_dist_matrix : Mat := setEntry (onesMat 33 33) 0 0 0

/-! ### GWDLCELoss -/

/-- State of a constructed `GWDLCELoss`: the trade-off weights and the two
externally constructed loss objects (opaque functions from a prediction
and a target tensor to a scalar loss). -/
structure GWDLCELoss where
  lambda_dice : ℚ
  lambda_ce : ℚ
  cross_entropy : Tensor → Tensor → ℚ
  generalized_dice : Tensor → Tensor → ℚ

/-- The target actually handed to `self.cross_entropy` by `GWDLCELoss.ce`:
if the channel counts differ and the target has exactly one channel, the
channel dimension is squeezed and the result cast with `.long()`;
otherwise a non-floating target is cast to the input's dtype; otherwise
the target is untouched. -/
def GWDLCELoss.ceTarget (input target : Tensor) : Tensor :=
  let n_pred_ch := input.channels
  let n_target_ch := target.channels
  if n_pred_ch ≠ n_target_ch ∧ n_target_ch = 1 then
    (target.squeezeDim1).long
  else if ¬ target.is_floating_point then
    target.toDtype input.dtype
  else
    target

/-- `GWDLCELoss.ce`: reconcile the target, then delegate to the external
cross-entropy object. -/
def GWDLCELoss.ce (self : GWDLCELoss) (input target : Tensor) : ℚ :=
  self.cross_entropy input (GWDLCELoss.ceTarget input target)

/-- `GWDLCELoss.gwdl`: delegate to the external Generalized Wasserstein
Dice object with both tensors unchanged (the one-hot conversion in the
source is commented out). -/
def GWDLCELoss.gwdl (self : GWDLCELoss) (y_pred y_true : Tensor) : ℚ :=
  self.generalized_dice y_pred y_true

/-- `GWDLCELoss.forward`: computes the CE loss and the GWDL loss and
returns the pair `(gwdl_loss, ce_loss)` (the weighted sum in the source
is commented out). -/
def GWDLCELoss.forward (self : GWDLCELoss) (y_pred y_true : Tensor) : ℚ × ℚ :=
  let ce_loss := self.ce y_pred y_true
  let gwdl_loss := self.gwdl y_pred y_true
  (gwdl_loss, ce_loss)

/-! ### DiceCELoss -/

/-- Errors raised during `DiceCELoss.__init__`. -/
inductive InitError where
  | lookupError
  | valueError (msg : String)
deriving DecidableEq, Repr

/-- The members of the `DiceCEReduction` enumeration. -/
def DiceCEReduction : List String := ["mean", "sum"]

/-- `look_up_option(reduction, DiceCEReduction)`: returns the value when
it belongs to the enumeration, raises otherwise. -/
def look_up_option (s : String) : Except InitError String :=
  if s ∈ DiceCEReduction then .ok s else .error .lookupError

/-- State of a constructed `DiceCELoss`: the two externally constructed
loss objects, the trade-off weights, the reduction, and the cached
pytorch version check `old_pt_ver = not pytorch_after(1, 10)`. -/
structure DiceCELoss where
  dice : Tensor → Tensor → ℚ
  cross_entropy : Tensor → Tensor → ℚ
  lambda_dice : ℚ
  lambda_ce : ℚ
  reduction : String
  old_pt_ver : Bool

/-- `DiceCELoss.__init__`: validates the reduction against the
`DiceCEReduction` enumeration first, then (after constructing the two
delegated loss objects, supplied here as parameters) raises a
`ValueError` on a negative `lambda_dice` or `lambda_ce`. -/
def DiceCELoss.init (dice cross_entropy : Tensor → Tensor → ℚ)
    (reduction : String) (lambda_dice lambda_ce : ℚ)
    (pytorch_after_1_10 : Bool) : Except InitError DiceCELoss :=
  (look_up_option reduction).bind fun r =>
    if lambda_dice < 0 then
      .error (.valueError "lambda_dice should be no less than 0.0.")
    else if lambda_ce < 0 then
      .error (.valueError "lambda_ce should be no less than 0.0.")
    else
      .ok { dice := dice
            cross_entropy := cross_entropy
            lambda_dice := lambda_dice
            lambda_ce := lambda_ce
            reduction := r
            old_pt_ver := !pytorch_after_1_10 }

/-- The target actually handed to `self.cross_entropy` by
`DiceCELoss.ce`, applying the reconciliation rules in the source's order:
(1) mismatched channel counts with a one-channel target → squeeze and
`.long()`; (2) else on an old pytorch version → arg-max over the channel
dimension; (3) else a non-floating target → cast to the input's dtype;
otherwise unchanged. -/
def DiceCELoss.ceTarget (old_pt_ver : Bool) (input target : Tensor) : Tensor :=
  let n_pred_ch := input.channels
  let n_target_ch := target.channels
  if n_pred_ch ≠ n_target_ch ∧ n_target_ch = 1 then
    (target.squeezeDim1).long
  else if old_pt_ver then
    target.argmaxDim1
  else if ¬ target.is_floating_point then
    target.toDtype input.dtype
  else
    target

/-- `DiceCELoss.ce`: reconcile the target, then delegate to the external
cross-entropy object. -/
def DiceCELoss.ce (self : DiceCELoss) (input target : Tensor) : ℚ :=
  self.cross_entropy input (DiceCELoss.ceTarget self.old_pt_ver input target)

/-- The `ValueError` message of `DiceCELoss.forward` on a rank mismatch,
naming both shapes as torch renders them. -/
def dimMismatchMsg (s t : List Nat) : String :=
  "the number of dimensions for input and target should be the same, " ++
    "got shape torch.Size([" ++ String.intercalate ", " (s.map toString) ++
    "]) and torch.Size([" ++ String.intercalate ", " (t.map toString) ++ "])."

/-- `DiceCELoss.forward`: raises when ranks differ, otherwise returns the
pair `(dice_loss, ce_loss)` (the weighted sum in the source is commented
out). -/
def DiceCELoss.forward (self : DiceCELoss) (input target : Tensor) :
    Except String (ℚ × ℚ) :=
  if input.shape.length ≠ target.shape.length then
    .error (dimMismatchMsg input.shape target.shape)
  else
    let dice_loss := self.dice input target
    let ce_loss := self.ce input target
    .ok (dice_loss, ce_loss)

/-- A trivial stand-in for an externally constructed loss delegate, used
to instantiate loss states on concrete inputs. -/
def zeroLoss : Tensor → Tensor → ℚ := fun _ _ => 0

/-- A sample `DiceCELoss` state with trivial delegates. -/
def sampleDiceCE (old : Bool) : DiceCELoss :=
  { dice := zeroLoss
    cross_entropy := zeroLoss
    lambda_dice := 1
    lambda_ce := 1
    reduction := "mean"
    old_pt_ver := old }

/-- A sample `GWDLCELoss` state with trivial delegates. -/
def sampleGWDLCE : GWDLCELoss :=
  { lambda_dice := 1
    lambda_ce := 1
    cross_entropy := zeroLoss
    generalized_dice := zeroLoss }

/-! ### Helper notions and lemmas -/

lemma truncQ_intCast (n : ℤ) : truncQ (n : ℚ) = n := by
  unfold truncQ
  split
  · simp
  · rw [← Int.cast_neg, Int.floor_intCast]
    omega

lemma map_trunc_of_integral (l : List ℚ)
    (h : ∀ x ∈ l, ∃ n : ℤ, x = (n : ℚ)) :
    l.map (fun q => ((truncQ q : ℤ) : ℚ)) = l := by
  induction l with
  | nil => simp
  | cons x xs ih =>
      obtain ⟨n, hn⟩ := h x (by simp)
      simp only [List.map_cons]
      rw [hn, truncQ_intCast, ih fun y hy => h y (by simp [hy])]

/-- `m` is an `r × c` matrix. -/
def hasShape (m : Mat) (r c : Nat) : Bool :=
  m.length == r && m.all fun row => row.length == c

lemma hasShape_iff (m : Mat) (r c : Nat) :
    hasShape m r c = true ↔ m.length = r ∧ ∀ row ∈ m, row.length = c := by
  simp [hasShape]

lemma rectCols_of_hasShape (m : Mat) (r c : Nat)
    (h : hasShape m r c = true) (hr : r ≠ 0) : rectCols m = some c := by
  rw [hasShape_iff] at h
  obtain ⟨hlen, hall⟩ := h
  cases m with
  | nil => simp at hlen; omega
  | cons x xs =>
      have hx : x.length = c := hall x (by simp)
      have hxs : (xs.all fun y => y.length == x.length) = true := by
        simp only [List.all_eq_true, beq_iff_eq, hx]
        intro y hy
        exact hall y (by simp [hy])
      have hrc : rectCols (x :: xs) =
          if (xs.all fun y => y.length == x.length) = true then some x.length
          else none := rfl
      rw [hrc, if_pos hxs, hx]

lemma zipWith_cons_replicate :
    ∀ (l : Mat) (n : Nat), l.length = n →
      List.zipWith (· ++ ·) (List.replicate n [(1 : ℚ)]) l =
        l.map fun r => (1 : ℚ) :: r := by
  intro l
  induction l with
  | nil => intro n h; subst h; simp
  | cons x xs ih =>
      intro n h
      subst h
      simp only [List.length_cons, List.replicate_succ, List.zipWith_cons_cons,
        List.map_cons, List.singleton_append]
      rw [ih xs.length rfl]

lemma getD_replicate (n i : Nat) (a d : ℚ) (h : i < n) :
    (List.replicate n a).getD i d = a := by
  rw [List.getD_eq_getElem _ _ (by simpa using h)]
  simp

/-- Building the background-inclusive matrix out of any `32 × 32` base
table yields a first row `0, 1, …, 1` on top of the base table with a
column of ones prepended. -/
lemma tooth_build_eq (base : Mat) (hb : hasShape base 32 32 = true) :
    (torchCat0 (onesMat 1 32) base).bind (fun m1 =>
      (torchCat1 (onesMat 33 1) m1).bind fun m2 => some (setEntry m2 0 0 0)) =
      some ((0 :: List.replicate 32 1) :: base.map fun r => (1 : ℚ) :: r) := by
  have hlen : base.length = 32 := ((hasShape_iff base 32 32).1 hb).1
  have hcols : rectCols base = some 32 :=
    rectCols_of_hasShape base 32 32 hb (by omega)
  have hones : rectCols (onesMat 1 32) = some 32 := by
    have : rectCols (onesMat 1 32) =
        if ([] : Mat).all (fun y => y.length == (List.replicate 32 (1 : ℚ)).length)
        then some (List.replicate 32 (1 : ℚ)).length else none := rfl
    simp [this]
  have hcat0 : torchCat0 (onesMat 1 32) base =
      some (List.replicate 32 1 :: base) := by
    simp only [torchCat0, Option.bind_eq_bind, hones, hcols, Option.some_bind]
    simp [onesMat]
  have honescol : onesMat 33 1 = List.replicate 33 [(1 : ℚ)] := by
    simp [onesMat]
  have hcat1 : torchCat1 (onesMat 33 1) (List.replicate 32 1 :: base) =
      some (((1 : ℚ) :: List.replicate 32 1) ::
        base.map fun r => (1 : ℚ) :: r) := by
    unfold torchCat1
    rw [honescol, if_pos (by simp [hlen])]
    rw [zipWith_cons_replicate _ 33 (by simp [hlen])]
    simp
  rw [hcat0, Option.some_bind, hcat1, Option.some_bind]
  simp [setEntry]

/-- Structural form of the matrix built by `get_tooth_dist_matrix` on any
`32 × 32` base tables. -/
lemma get_tooth_dist_matrix_eq (tqp teq : Mat) (qp : PyArg)
    (h1 : hasShape tqp 32 32 = true) (h2 : hasShape teq 32 32 = true) :
    get_tooth_dist_matrix tqp teq qp =
      some ((0 :: List.replicate 32 1) ::
        (loadBaseTable tqp teq qp).map fun r => (1 : ℚ) :: r) := by
  have hb : hasShape (loadBaseTable tqp teq qp) 32 32 = true := by
    unfold loadBaseTable
    split <;> assumption
  exact tooth_build_eq (loadBaseTable tqp teq qp) hb

lemma getD_map_cons_one (base : Mat) (j : Nat) (h : j < base.length) :
    ((base.map fun r => (1 : ℚ) :: r).getD j []) = 1 :: base.getD j [] := by
  rw [List.getD_eq_getElem _ _ (by simpa using h), List.getD_eq_getElem _ _ h]
  simp

/-- Entry- and shape-level facts about the background-embedded matrix. -/
lemma tooth_m_props (base : Mat) (hb : hasShape base 32 32 = true) :
    hasShape ((0 :: List.replicate 32 1) ::
        base.map fun r => (1 : ℚ) :: r) 33 33 = true ∧
    entry ((0 :: List.replicate 32 1) ::
        base.map fun r => (1 : ℚ) :: r) 0 0 = 0 ∧
    (∀ k, k < 33 → 0 < k →
      entry ((0 :: List.replicate 32 1) ::
          base.map fun r => (1 : ℚ) :: r) 0 k = 1 ∧
      entry ((0 :: List.replicate 32 1) ::
          base.map fun r => (1 : ℚ) :: r) k 0 = 1) ∧
    (∀ k, k < 33 → 0 < k →
      entry ((0 :: List.replicate 32 1) ::
          base.map fun r => (1 : ℚ) :: r) k k = entry base (k - 1) (k - 1)) := by
  obtain ⟨hlen, hrows⟩ := (hasShape_iff base 32 32).1 hb
  refine ⟨?_, by simp [entry], ?_, ?_⟩
  · rw [hasShape_iff]
    constructor
    · simp [hlen]
    · intro row hrow
      rcases List.mem_cons.1 hrow with h | h
      · simp [h]
      · obtain ⟨r, hr, rfl⟩ := List.mem_map.1 h
        simp [hrows r hr]
  · intro k hk hk0
    obtain ⟨j, rfl⟩ := Nat.exists_eq_succ_of_ne_zero (Nat.pos_iff_ne_zero.1 hk0)
    have hj : j < 32 := by omega
    constructor
    · simp only [entry, List.getD_cons_zero, List.getD_cons_succ]
      exact getD_replicate 32 j 1 0 hj
    · simp only [entry, List.getD_cons_succ]
      rw [getD_map_cons_one base j (by omega)]
      simp
  · intro k hk hk0
    obtain ⟨j, rfl⟩ := Nat.exists_eq_succ_of_ne_zero (Nat.pos_iff_ne_zero.1 hk0)
    simp only [entry, List.getD_cons_succ]
    rw [getD_map_cons_one base j (by omega)]
    simp

/-! ### Claims -/

/-- C4: for every variant, the background-inclusive matrix built from a
`32 × 32` base table is `33 × 33` (NumRealClasses + 1 with
NumRealClasses = 32), with `matrix[0][0] = 0` and
`matrix[0][k] = matrix[k][0] = 1` for all `k > 0`; the same holds for
`get_equall_dist_matrix`. -/
theorem dist_matrix_background_row_and_size (tqp teq : Mat) (qp : PyArg)
    (h1 : hasShape tqp 32 32 = true) (h2 : hasShape teq 32 32 = true) :
    (∃ m, get_tooth_dist_matrix tqp teq qp = some m ∧
      hasShape m 33 33 = true ∧ entry m 0 0 = 0 ∧
      (∀ k, k < 33 → 0 < k → entry m 0 k = 1 ∧ entry m k 0 = 1)) ∧
    hasShape get_equall_dist_matrix 33 33 = true ∧
    entry get_equall_dist_matrix 0 0 = 0 ∧
    (∀ k, k < 33 → 0 < k →
      entry get_equall_dist_matrix 0 k = 1 ∧
      entry get_equall_dist_matrix k 0 = 1) := by
  refine ⟨?_, by decide, by decide, by decide⟩
  have hb : hasShape (loadBaseTable tqp teq qp) 32 32 = true := by
    unfold loadBaseTable
    split <;> assumption
  obtain ⟨hshape, h00, hborder, _⟩ := tooth_m_props (loadBaseTable tqp teq qp) hb
  exact ⟨_, get_tooth_dist_matrix_eq tqp teq qp h1 h2, hshape, h00, hborder⟩

/-- Witness for C4 at concrete all-ones base tables and the default
`quarter_penalty` argument. -/
theorem dist_matrix_background_row_and_size_witness :
    (∃ m, get_tooth_dist_matrix (onesMat 32 32) (onesMat 32 32)
        defaultQuarterPenalty = some m ∧
      hasShape m 33 33 = true ∧ entry m 0 0 = 0 ∧
      (∀ k, k < 33 → 0 < k → entry m 0 k = 1 ∧ entry m k 0 = 1)) ∧
    hasShape get_equall_dist_matrix 33 33 = true ∧
    entry get_equall_dist_matrix 0 0 = 0 ∧
    (∀ k, k < 33 → 0 < k →
      entry get_equall_dist_matrix 0 k = 1 ∧
      entry get_equall_dist_matrix k 0 = 1) :=
  dist_matrix_background_row_and_size (onesMat 32 32) (onesMat 32 32)
    defaultQuarterPenalty (by decide) (by decide)

/-- C1 counterexample: the matrix built by `get_equall_dist_matrix` does
NOT have zero self-distance for every class: at class index 1 the
self-distance is 1, not 0. -/
theorem equall_self_distance_counterexample :
    entry get_equall_dist_matrix 1 1 = 1 ∧
    ¬ entry get_equall_dist_matrix 1 1 = 0 := by decide

/-- C1 amended: every built matrix has zero self-distance for the
background class (`matrix[0][0] = 0`); for `get_equall_dist_matrix` the
self-distance of every real class `i > 0` equals 1, and for
`get_tooth_dist_matrix` it equals the loaded base table's diagonal entry
`[i-1][i-1]`. -/
theorem dist_matrix_self_distance_amended (tqp teq : Mat) (qp : PyArg)
    (h1 : hasShape tqp 32 32 = true) (h2 : hasShape teq 32 32 = true) :
    entry get_equall_dist_matrix 0 0 = 0 ∧
    (∀ i, i < 33 → 0 < i → entry get_equall_dist_matrix i i = 1) ∧
    ∃ m, get_tooth_dist_matrix tqp teq qp = some m ∧ entry m 0 0 = 0 ∧
      ∀ i, i < 33 → 0 < i →
        entry m i i = entry (loadBaseTable tqp teq qp) (i - 1) (i - 1) := by
  refine ⟨by decide, by decide, ?_⟩
  have hb : hasShape (loadBaseTable tqp teq qp) 32 32 = true := by
    unfold loadBaseTable
    split <;> assumption
  obtain ⟨_, h00, _, hdiag⟩ := tooth_m_props (loadBaseTable tqp teq qp) hb
  exact ⟨_, get_tooth_dist_matrix_eq tqp teq qp h1 h2, h00, hdiag⟩

/-- Witness for the amended C1 at concrete base tables. -/
theorem dist_matrix_self_distance_amended_witness :
    entry get_equall_dist_matrix 0 0 = 0 ∧
    (∀ i, i < 33 → 0 < i → entry get_equall_dist_matrix i i = 1) ∧
    ∃ m, get_tooth_dist_matrix (onesMat 32 32) (onesMat 32 32)
        (.bool false) = some m ∧ entry m 0 0 = 0 ∧
      ∀ i, i < 33 → 0 < i →
        entry m i i =
          entry (loadBaseTable (onesMat 32 32) (onesMat 32 32) (.bool false))
            (i - 1) (i - 1) :=
  dist_matrix_self_distance_amended (onesMat 32 32) (onesMat 32 32)
    (.bool false) (by decide) (by decide)

/-- C8: in the matrix built by `get_equall_dist_matrix`, every entry with
both indices positive equals 1; every entry equals 1 except the `[0][0]`
cell, which is 0. -/
theorem equall_dist_matrix_entries :
    (∀ i, i < 33 → ∀ j, j < 33 → 0 < i → 0 < j →
      entry get_equall_dist_matrix i j = 1) ∧
    (∀ i, i < 33 → ∀ j, j < 33 →
      entry get_equall_dist_matrix i j =
        if i = 0 ∧ j = 0 then 0 else 1) := by decide

/-- Witness for C8 at concrete indices. -/
theorem equall_dist_matrix_entries_witness :
    entry get_equall_dist_matrix 5 7 = 1 ∧
    entry get_equall_dist_matrix 0 0 = if True ∧ True then 0 else 1 :=
  ⟨equall_dist_matrix_entries.1 5 (by decide) 7 (by decide) (by decide)
      (by decide),
   by
    have h := equall_dist_matrix_entries.2 0 (by decide) 0 (by decide)
    simpa using h⟩

/-- C10: `get_tooth_dist_matrix` selects its variant by Python truthiness
of `quarter_penalty`, whose default is the STRING `"True"`: every
non-empty string — including `"False"` — selects the quarter-penalty
table, and the equal table is selected only for falsy arguments. -/
theorem tooth_dist_matrix_truthy_selection (tqp teq : Mat) :
    defaultQuarterPenalty = PyArg.str "True" ∧
    (∀ s : String, s ≠ "" → loadBaseTable tqp teq (.str s) = tqp) ∧
    loadBaseTable tqp teq (.str "False") = tqp ∧
    (∀ a : PyArg, a.truthy = false → loadBaseTable tqp teq a = teq) ∧
    get_tooth_dist_matrix tqp teq (.str "False") =
      get_tooth_dist_matrix tqp teq (.bool true) := by
  have hstr : ∀ s : String, s ≠ "" → PyArg.truthy (.str s) = true := by
    intro s hs
    have hl : s.length ≠ 0 := by
      intro hl
      apply hs
      cases s with
      | mk data =>
          cases data with
          | nil => rfl
          | cons c cs => simp [String.length] at hl
    simp [PyArg.truthy, hl]
  refine ⟨rfl, ?_, ?_, ?_, ?_⟩
  · intro s hs
    simp [loadBaseTable, hstr s hs]
  · simp [loadBaseTable, hstr "False" (by decide)]
  · intro a ha
    simp [loadBaseTable, ha]
  · unfold get_tooth_dist_matrix
    rw [show loadBaseTable tqp teq (.str "False") = tqp from by
          simp [loadBaseTable, hstr "False" (by decide)],
        show loadBaseTable tqp teq (.bool true) = tqp from by
          simp [loadBaseTable, PyArg.truthy]]

/-- Witness for C10 at concrete distinct tables. -/
theorem tooth_dist_matrix_truthy_selection_witness :
    loadBaseTable [[(2 : ℚ)]] [[(3 : ℚ)]] (.str "False") = [[(2 : ℚ)]] ∧
    loadBaseTable [[(2 : ℚ)]] [[(3 : ℚ)]] (.bool false) = [[(3 : ℚ)]] :=
  ⟨(tooth_dist_matrix_truthy_selection [[(2 : ℚ)]] [[(3 : ℚ)]]).2.1 "False"
      (by decide),
   (tooth_dist_matrix_truthy_selection [[(2 : ℚ)]] [[(3 : ℚ)]]).2.2.2.1
      (.bool false) (by decide)⟩

/-- C3: whenever input and target ranks differ, `DiceCELoss.forward`
returns the descriptive shape-mismatch error naming both shapes, and the
result does not depend on the delegated loss objects held in the state
(so neither delegate is invoked). -/
theorem DiceCELoss_forward_rank_mismatch (self : DiceCELoss)
    (input target : Tensor)
    (h : input.shape.length ≠ target.shape.length) :
    DiceCELoss.forward self input target =
      .error (dimMismatchMsg input.shape target.shape) ∧
    ∀ other : DiceCELoss,
      DiceCELoss.forward other input target =
        DiceCELoss.forward self input target := by
  constructor
  · simp [DiceCELoss.forward, h]
  · intro other
    simp [DiceCELoss.forward, h]

/-- Witness for C3 at a rank-3 input against a rank-2 target. -/
theorem DiceCELoss_forward_rank_mismatch_witness :
    (Tensor.mk [2, 3, 4] .float32 []).shape.length ≠
      (Tensor.mk [2, 3] .float32 []).shape.length ∧
    DiceCELoss.forward (sampleDiceCE false)
        ⟨[2, 3, 4], .float32, []⟩ ⟨[2, 3], .float32, []⟩ =
      .error (dimMismatchMsg [2, 3, 4] [2, 3]) :=
  ⟨by decide,
   (DiceCELoss_forward_rank_mismatch (sampleDiceCE false)
      ⟨[2, 3, 4], .float32, []⟩ ⟨[2, 3], .float32, []⟩ (by decide)).1⟩

/-- C5: `DiceCELoss` construction raises a `ValueError` when
`lambda_dice < 0` or `lambda_ce < 0`, succeeds when both are `0.0` (with
a valid reduction), and raises the lookup error when the reduction is
outside the `DiceCEReduction` enumeration. -/
theorem DiceCELoss_init_validation (dice ce : Tensor → Tensor → ℚ)
    (d c : ℚ) (pt : Bool) :
    (d < 0 ∨ c < 0 →
      ∃ msg, DiceCELoss.init dice ce "mean" d c pt =
        .error (.valueError msg)) ∧
    (∃ st, DiceCELoss.init dice ce "mean" 0 0 pt = .ok st) ∧
    (∀ red, red ∉ DiceCEReduction →
      DiceCELoss.init dice ce red d c pt = .error .lookupError) := by
  have hmean : look_up_option "mean" = .ok "mean" := by
    simp [look_up_option, DiceCEReduction]
  refine ⟨?_, ?_, ?_⟩
  · intro h
    by_cases hd : d < 0
    · exact ⟨"lambda_dice should be no less than 0.0.", by
        simp [DiceCELoss.init, hmean, Except.bind, hd]⟩
    · have hc : c < 0 := by tauto
      exact ⟨"lambda_ce should be no less than 0.0.", by
        simp [DiceCELoss.init, hmean, Except.bind, hd, hc]⟩
  · refine Exists.intro
      { dice := dice
        cross_entropy := ce
        lambda_dice := 0
        lambda_ce := 0
        reduction := "mean"
        old_pt_ver := !pt } ?_
    norm_num [DiceCELoss.init, hmean, Except.bind]
  · intro red hred
    have hlook : look_up_option red = .error .lookupError := by
      simp [look_up_option, hred]
    simp [DiceCELoss.init, hlook, Except.bind]

/-- Witness for C5: a negative `lambda_dice` fails, both-zero lambdas
succeed, and the reduction `"none"` is rejected with the lookup error. -/
theorem DiceCELoss_init_validation_witness :
    (∃ msg, DiceCELoss.init zeroLoss zeroLoss "mean" (-1/10) 0 true =
      .error (.valueError msg)) ∧
    (∃ st, DiceCELoss.init zeroLoss zeroLoss "mean" 0 0 true = .ok st) ∧
    DiceCELoss.init zeroLoss zeroLoss "none" (-1/10) 0 true =
      .error .lookupError :=
  ⟨(DiceCELoss_init_validation zeroLoss zeroLoss (-1/10) 0 true).1
      (Or.inl (by norm_num)),
   (DiceCELoss_init_validation zeroLoss zeroLoss (-1/10) 0 true).2.1,
   (DiceCELoss_init_validation zeroLoss zeroLoss (-1/10) 0 true).2.2
      "none" (by decide)⟩

/-- C2: `DiceCELoss.ce` applies the label-reconciliation rules in order
with the first matching rule winning — (1) mismatched channel counts with
a one-channel target → squeeze and cast to `int64`, even on an old
pytorch version; (2) else on an old pytorch version → arg-max over the
channel dimension; (3) else a non-floating target → cast to the input's
dtype — and in the scenario of a `(2,3,4,4,4)` float input against a
`(2,1,4,4,4)` integer-valued target it delegates a `(2,4,4,4)` target of
integer dtype to the external cross-entropy, with its values intact. -/
theorem DiceCELoss_ce_reconciliation_order (old : Bool)
    (input target : Tensor) :
    (input.channels ≠ target.channels → target.channels = 1 →
      DiceCELoss.ceTarget old input target = (target.squeezeDim1).long) ∧
    (input.channels = target.channels ∨ target.channels ≠ 1 → old = true →
      DiceCELoss.ceTarget old input target = target.argmaxDim1) ∧
    (input.channels = target.channels ∨ target.channels ≠ 1 → old = false →
      target.is_floating_point = false →
      DiceCELoss.ceTarget old input target = target.toDtype input.dtype) ∧
    (input.shape = [2, 3, 4, 4, 4] → target.shape = [2, 1, 4, 4, 4] →
      (∀ x ∈ target.data, ∃ n : ℤ, x = (n : ℚ)) →
      (DiceCELoss.ceTarget old input target).shape = [2, 4, 4, 4] ∧
      (DiceCELoss.ceTarget old input target).dtype = .int64 ∧
      (DiceCELoss.ceTarget old input target).data = target.data) ∧
    (∀ self : DiceCELoss, DiceCELoss.ce self input target =
      self.cross_entropy input
        (DiceCELoss.ceTarget self.old_pt_ver input target)) := by
  refine ⟨?_, ?_, ?_, ?_, fun self => rfl⟩
  · intro hne h1
    simp only [DiceCELoss.ceTarget]
    rw [if_pos ⟨hne, h1⟩]
  · intro hnot hold
    have hc : ¬ (input.channels ≠ target.channels ∧ target.channels = 1) := by
      tauto
    simp only [DiceCELoss.ceTarget]
    rw [if_neg hc, if_pos hold]
  · intro hnot hold hf
    have hc : ¬ (input.channels ≠ target.channels ∧ target.channels = 1) := by
      tauto
    simp only [DiceCELoss.ceTarget]
    rw [if_neg hc, if_neg (by simp [hold]), if_pos (by simp [hf])]
  · intro hin ht hdata
    have hcond : input.channels ≠ target.channels ∧ target.channels = 1 :=
      ⟨by simp [Tensor.channels, hin, ht], by simp [Tensor.channels, ht]⟩
    have hrule : DiceCELoss.ceTarget old input target =
        (target.squeezeDim1).long := by
      simp only [DiceCELoss.ceTarget]
      rw [if_pos hcond]
    rw [hrule]
    obtain ⟨sh, dt, da⟩ := target
    simp only at ht
    subst ht
    simp only [Tensor.squeezeDim1, Tensor.long, Tensor.toDtype, DType.isFloating]
    refine ⟨trivial, trivial, ?_⟩
    exact map_trunc_of_integral da (by simpa using hdata)

/-- Witness for C2 at the scenario shapes with an all-zero integer
target, on the old pytorch version (rule 1 still fires first). -/
theorem DiceCELoss_ce_reconciliation_order_witness :
    (DiceCELoss.ceTarget true
        ⟨[2, 3, 4, 4, 4], .float32, List.replicate 384 0⟩
        ⟨[2, 1, 4, 4, 4], .int32, List.replicate 128 0⟩).shape =
      [2, 4, 4, 4] ∧
    (DiceCELoss.ceTarget true
        ⟨[2, 3, 4, 4, 4], .float32, List.replicate 384 0⟩
        ⟨[2, 1, 4, 4, 4], .int32, List.replicate 128 0⟩).dtype = .int64 ∧
    (DiceCELoss.ceTarget true
        ⟨[2, 3, 4, 4, 4], .float32, List.replicate 384 0⟩
        ⟨[2, 1, 4, 4, 4], .int32, List.replicate 128 0⟩).data =
      List.replicate 128 0 :=
  (DiceCELoss_ce_reconciliation_order true
      ⟨[2, 3, 4, 4, 4], .float32, List.replicate 384 0⟩
      ⟨[2, 1, 4, 4, 4], .int32, List.replicate 128 0⟩).2.2.2.1 rfl rfl
    (fun x hx => ⟨0, by simpa using List.eq_of_mem_replicate hx⟩)

/-- C6: `GWDLCELoss.ce` squeezes and casts to `int64` a one-channel
target with mismatched channel count, else casts a non-floating target to
the prediction's dtype, else passes it through; the reconciled target is
what reaches the external cross-entropy, while `forward` hands the GWDL
delegate the prediction and target unchanged. -/
theorem GWDLCELoss_ce_reconciliation (input target : Tensor) :
    (input.channels ≠ target.channels → target.channels = 1 →
      GWDLCELoss.ceTarget input target = (target.squeezeDim1).long) ∧
    (input.channels = target.channels ∨ target.channels ≠ 1 →
      target.is_floating_point = false →
      GWDLCELoss.ceTarget input target = target.toDtype input.dtype) ∧
    (input.channels = target.channels ∨ target.channels ≠ 1 →
      target.is_floating_point = true →
      GWDLCELoss.ceTarget input target = target) ∧
    (∀ self : GWDLCELoss,
      GWDLCELoss.ce self input target =
        self.cross_entropy input (GWDLCELoss.ceTarget input target) ∧
      GWDLCELoss.forward self input target =
        (self.generalized_dice input target,
          self.cross_entropy input (GWDLCELoss.ceTarget input target))) := by
  refine ⟨?_, ?_, ?_, fun self => ⟨rfl, rfl⟩⟩
  · intro hne h1
    simp only [GWDLCELoss.ceTarget]
    rw [if_pos ⟨hne, h1⟩]
  · intro hnot hf
    have hc : ¬ (input.channels ≠ target.channels ∧ target.channels = 1) := by
      tauto
    simp only [GWDLCELoss.ceTarget]
    rw [if_neg hc, if_pos (by simp [hf])]
  · intro hnot hf
    have hc : ¬ (input.channels ≠ target.channels ∧ target.channels = 1) := by
      tauto
    simp only [GWDLCELoss.ceTarget]
    rw [if_neg hc, if_neg (by simp [hf])]

/-- Witness for C6: a `(2,1)`-shaped integer target against a
`(2,3)`-shaped prediction is squeezed and cast. -/
theorem GWDLCELoss_ce_reconciliation_witness :
    GWDLCELoss.ceTarget ⟨[2, 3], .float32, []⟩ ⟨[2, 1], .int32, [1, 2]⟩ =
      ((⟨[2, 1], .int32, [1, 2]⟩ : Tensor).squeezeDim1).long :=
  (GWDLCELoss_ce_reconciliation ⟨[2, 3], .float32, []⟩
      ⟨[2, 1], .int32, [1, 2]⟩).1 (by decide) (by decide)

/-- C7 counterexample: on an old pytorch version (`old_pt_ver = true`),
`DiceCELoss.ce` does NOT pass a conforming target through unchanged: a
float target with the input's channel count is replaced by its arg-max. -/
theorem ce_idempotence_counterexample :
    (Tensor.mk [1, 2] .float32 [1/2, 7/10]).channels =
      (Tensor.mk [1, 2] .float32 [0, 0]).channels ∧
    (Tensor.mk [1, 2] .float32 [1/2, 7/10]).is_floating_point = true ∧
    DiceCELoss.ceTarget true ⟨[1, 2], .float32, [0, 0]⟩
        ⟨[1, 2], .float32, [1/2, 7/10]⟩ ≠
      (⟨[1, 2], .float32, [1/2, 7/10]⟩ : Tensor) := by decide

/-- C7 amended: a target matching the input's channel count with floating
dtype passes through `GWDLCELoss.ce` unchanged and through
`DiceCELoss.ce` unchanged provided `old_pt_ver` is false; with
`old_pt_ver` true, `DiceCELoss.ce` instead delegates the arg-max of the
target. -/
theorem ce_idempotence_amended (input target : Tensor)
    (hch : target.channels = input.channels)
    (hf : target.is_floating_point = true) :
    GWDLCELoss.ceTarget input target = target ∧
    DiceCELoss.ceTarget false input target = target ∧
    DiceCELoss.ceTarget true input target = target.argmaxDim1 := by
  have hc : ¬ (input.channels ≠ target.channels ∧ target.channels = 1) := by
    rw [hch]
    tauto
  refine ⟨?_, ?_, ?_⟩
  · simp only [GWDLCELoss.ceTarget]
    rw [if_neg hc, if_neg (by simp [hf])]
  · simp only [DiceCELoss.ceTarget]
    rw [if_neg hc, if_neg (by simp), if_neg (by simp [hf])]
  · simp only [DiceCELoss.ceTarget]
    rw [if_neg hc]
    simp

/-- Witness for the amended C7 at a concrete conforming pair. -/
theorem ce_idempotence_amended_witness :
    GWDLCELoss.ceTarget ⟨[1, 2], .float32, [0, 0]⟩
        ⟨[1, 2], .float32, [1/2, 7/10]⟩ =
      (⟨[1, 2], .float32, [1/2, 7/10]⟩ : Tensor) ∧
    DiceCELoss.ceTarget false ⟨[1, 2], .float32, [0, 0]⟩
        ⟨[1, 2], .float32, [1/2, 7/10]⟩ =
      (⟨[1, 2], .float32, [1/2, 7/10]⟩ : Tensor) ∧
    DiceCELoss.ceTarget true ⟨[1, 2], .float32, [0, 0]⟩
        ⟨[1, 2], .float32, [1/2, 7/10]⟩ =
      (⟨[1, 2], .float32, [1/2, 7/10]⟩ : Tensor).argmaxDim1 :=
  ce_idempotence_amended ⟨[1, 2], .float32, [0, 0]⟩
    ⟨[1, 2], .float32, [1/2, 7/10]⟩ rfl rfl

/-- C9: both `forward` methods return the two component losses
uncombined — the pair is exactly (region-overlap delegate output,
cross-entropy delegate output) — and the stored `lambda_dice` and
`lambda_ce` weights never influence the returned values. -/
theorem forward_returns_uncombined (g : GWDLCELoss) (st : DiceCELoss)
    (p t : Tensor) :
    GWDLCELoss.forward g p t =
      (g.generalized_dice p t,
        g.cross_entropy p (GWDLCELoss.ceTarget p t)) ∧
    (∀ ld lc : ℚ,
      GWDLCELoss.forward
          { g with lambda_dice := ld, lambda_ce := lc } p t =
        GWDLCELoss.forward g p t) ∧
    (p.shape.length = t.shape.length →
      DiceCELoss.forward st p t =
        .ok (st.dice p t,
          st.cross_entropy p (DiceCELoss.ceTarget st.old_pt_ver p t))) ∧
    (∀ ld lc : ℚ,
      DiceCELoss.forward
          { st with lambda_dice := ld, lambda_ce := lc } p t =
        DiceCELoss.forward st p t) := by
  refine ⟨rfl, fun ld lc => rfl, ?_, fun ld lc => rfl⟩
  intro h
  simp [DiceCELoss.forward, h, DiceCELoss.ce]

/-- Witness for C9 at concrete states and equal-rank tensors. -/
theorem forward_returns_uncombined_witness :
    DiceCELoss.forward (sampleDiceCE false)
        ⟨[1, 2], .float32, [0, 0]⟩ ⟨[1, 2], .float32, [0, 0]⟩ =
      .ok ((sampleDiceCE false).dice
          ⟨[1, 2], .float32, [0, 0]⟩ ⟨[1, 2], .float32, [0, 0]⟩,
        (sampleDiceCE false).cross_entropy ⟨[1, 2], .float32, [0, 0]⟩
          (DiceCELoss.ceTarget (sampleDiceCE false).old_pt_ver
            ⟨[1, 2], .float32, [0, 0]⟩ ⟨[1, 2], .float32, [0, 0]⟩)) :=
  (forward_returns_uncombined sampleGWDLCE (sampleDiceCE false)
      ⟨[1, 2], .float32, [0, 0]⟩ ⟨[1, 2], .float32, [0, 0]⟩).2.2.1 rfl
